import Mathlib

/-!
Verification of the Gigatron TTL emulator (src/src/main.rs).

Shallow embedding: machine integers are modelled as Nat; every place the
Rust code relies on fixed-width wraparound (wrapping_add, wrapping_sub,
wrapping_neg) carries an explicit mod 256 / mod 65536.  RAM and ROM are
modelled as total functions on Nat (the Rust arrays are indexed only with
masked / typed indices, so the extra domain is never reached by the code
paths we reason about).  Host facilities (window, keyboard) enter as
explicit parameters.
-/

/-- The per-cycle CPU state, mirroring struct CpuState of the source. -/
structure CpuState where
  PC : Nat
  IR : Nat
  D : Nat
  AC : Nat
  X : Nat
  Y : Nat
  OUT : Nat
  undef : Nat
deriving Repr, DecidableEq

/-- Writeback targets, mirroring enum Register. -/
inductive Register where
  | AC
  | X
  | Y
  | OUT
deriving Repr, DecidableEq

/-- fn E: disable AC and OUT loading during RAM write. -/
def E (W : Bool) (p : Register) : Option Register :=
  if W then none else some p

/-- fn makeAddr: (hi as u16) << 8 | lo as u16. -/
def makeAddr (hi lo : Nat) : Nat :=
  (hi <<< 8) ||| lo

/-- Point update of a Nat-indexed byte store (a Rust array assignment). -/
def write (ram : Nat → Nat) (a v : Nat) : Nat → Nat :=
  fun i => if i = a then v else ram i

/-- Output of the mode decoder block of cpuCycle: effective address bytes,
writeback target (field tgt models the source variable named to), and the mode-7 X-increment flag. -/
structure ModeOut where
  lo : Nat
  hi : Nat
  tgt : Option Register
  incX : Bool
deriving Repr, DecidableEq

/-- The mode-decoder match of cpuCycle.  The initial values are
lo = S.D, hi = 0, to = None, incX = false; if the instruction is not a
jump the match on mode refines them.  mode is IR >> 2 & 7, so the last
arm is arm 7 of the source. -/
def modeDecode (J W : Bool) (mode : Nat) (S : CpuState) : ModeOut :=
  if !J then
    match mode with
    | 0 => ⟨S.D, 0, E W Register.AC, false⟩
    | 1 => ⟨S.X, 0, E W Register.AC, false⟩
    | 2 => ⟨S.D, S.Y, E W Register.AC, false⟩
    | 3 => ⟨S.X, S.Y, E W Register.AC, false⟩
    | 4 => ⟨S.D, 0, some Register.X, false⟩
    | 5 => ⟨S.D, 0, some Register.Y, false⟩
    | 6 => ⟨S.D, 0, E W Register.OUT, false⟩
    | _ => ⟨S.X, S.Y, E W Register.OUT, true⟩
  else ⟨S.D, 0, none, false⟩

/-- The data-bus match of cpuCycle: B starts as S.undef; bus=0 selects D,
bus=1 selects RAM[addr & 0x7fff] unless W (in which case B keeps S.undef),
bus=2 selects AC, bus=3 selects IN. -/
def busValue (bus : Nat) (W : Bool) (addr inp : Nat) (S : CpuState)
    (ram : Nat → Nat) : Nat :=
  match bus with
  | 0 => S.D
  | 1 => if !W then ram (addr &&& 0x7fff) else S.undef
  | 2 => S.AC
  | _ => inp

/-- The ALU match of cpuCycle.  Additions and subtraction wrap at 256
(u8 wrapping_add / wrapping_sub / wrapping_neg); the mod 256 on B in the
subtraction arm is the u8 truncation the Rust type system provides. -/
def aluValue (ins B : Nat) (S : CpuState) : Nat :=
  match ins with
  | 0 => B
  | 1 => S.AC &&& B
  | 2 => S.AC ||| B
  | 3 => S.AC ^^^ B
  | 4 => (S.AC + B) % 256
  | 5 => (S.AC + 256 - B % 256) % 256
  | 6 => S.AC
  | _ => (256 - S.AC % 256) % 256

/-- The writeback match of cpuCycle: load ALU into the selected register. -/
def applyWriteback (T : CpuState) (tgt : Option Register) (ALU : Nat) :
    CpuState :=
  match tgt with
  | some Register.AC => { T with AC := ALU }
  | some Register.OUT => { T with OUT := ALU }
  | some Register.X => { T with X := ALU }
  | some Register.Y => { T with Y := ALU }
  | none => T

/-- The PC-update block of cpuCycle: default S.PC+1 (u16 wrap); a jump with
mode 0 is a far jump to makeAddr(Y, B); a jump with nonzero mode branches
within the page when bit cond of mode is set, where
cond = (AC >> 7) + 2 * (AC == 0). -/
def pcNext (J : Bool) (mode B : Nat) (S : CpuState) : Nat :=
  if J then
    if mode ≠ 0 then
      let sAC := if S.AC = 0 then 1 else 0
      let cond := (S.AC >>> 7) + 2 * sAC
      let st := mode &&& (1 <<< cond)
      if st > 0 then (S.PC &&& 0xff00) ||| B
      else (S.PC + 1) % 65536
    else makeAddr S.Y B
  else (S.PC + 1) % 65536

/-- Decoded instruction field: ins = S.IR >> 5. -/
def cycIns (S : CpuState) : Nat := S.IR >>> 5

/-- Decoded mode field: mode = (S.IR >> 2) & 7. -/
def cycMode (S : CpuState) : Nat := (S.IR >>> 2) &&& 7

/-- Decoded bus field: bus = S.IR & 3. -/
def cycBus (S : CpuState) : Nat := S.IR &&& 3

/-- Write signal W: ins == 6. -/
def cycW (S : CpuState) : Bool := cycIns S == 6

/-- Jump signal J: ins == 7. -/
def cycJ (S : CpuState) : Bool := cycIns S == 7

/-- Mode-decoder output of the current cycle. -/
def cycMd (S : CpuState) : ModeOut :=
  modeDecode (cycJ S) (cycW S) (cycMode S) S

/-- Effective address of the current cycle. -/
def cycAddr (S : CpuState) : Nat := makeAddr (cycMd S).hi (cycMd S).lo

/-- Data-bus value B of the current cycle. -/
def cycB (inp : Nat) (S : CpuState) (ram : Nat → Nat) : Nat :=
  busValue (cycBus S) (cycW S) (cycAddr S) inp S ram

/-- ALU output of the current cycle. -/
def cycALU (inp : Nat) (S : CpuState) (ram : Nat → Nat) : Nat :=
  aluValue (cycIns S) (cycB inp S ram) S

/-- fn cpuCycle: one Gigatron cycle.  Returns the next CPU state T and the
updated RAM.  T starts as a copy of S; the fetch loads T.IR/T.D from
ROM[S.PC]; when W, RAM[addr & 0x7fff] receives B; the writeback loads ALU
into the selected register; mode-7 increments X afterwards; finally the PC
update runs. -/
def cpuCycle (rom : Nat → Nat × Nat) (inp : Nat) (S : CpuState)
    (ram : Nat → Nat) : CpuState × (Nat → Nat) :=
  let T0 := { S with IR := (rom S.PC).1, D := (rom S.PC).2 }
  let T1 := applyWriteback T0 (cycMd S).tgt (cycALU inp S ram)
  let T2 := if (cycMd S).incX then { T1 with X := (S.X + 1) % 256 } else T1
  let T3 := { T2 with PC := pcNext (cycJ S) (cycMode S) (cycB inp S ram) S }
  (T3, if cycW S then write ram (cycAddr S &&& 0x7fff) (cycB inp S ram)
       else ram)

/-- fn CpuState::new: the all-zero state. -/
def CpuState.new : CpuState := ⟨0, 0, 0, 0, 0, 0, 0, 0⟩

/-- Joystick directions and buttons, mirroring enum Direction. -/
inductive Direction where
  | Up
  | Left
  | Right
  | Down
  | ButtonA
  | ButtonB
  | Start
  | Select
deriving Repr, DecidableEq

/-- Host-side inputs visible to one driver-loop iteration: the character
delivered by the window input callback (already converted to its u32 code),
and the is_key_down state of the eight mapped keys. -/
structure Host where
  key : Option Nat
  up : Bool
  down : Bool
  left : Bool
  right : Bool
  enter : Bool
  backspace : Bool
  space : Bool
  tab : Bool
deriving Repr, DecidableEq

/-- fn VGA::check_joystick: successive is_key_down tests each overwrite the
result, so the last pressed key in the textual order Up, Down, Left, Right,
Enter, Backspace, Space, Tab wins. -/
def check_joystick (h : Host) : Option Direction :=
  let r : Option Direction := none
  let r := if h.up then some Direction.Up else r
  let r := if h.down then some Direction.Down else r
  let r := if h.left then some Direction.Left else r
  let r := if h.right then some Direction.Right else r
  let r := if h.enter then some Direction.Start else r
  let r := if h.backspace then some Direction.Select else r
  let r := if h.space then some Direction.ButtonA else r
  let r := if h.tab then some Direction.ButtonB else r
  r

/-- The active-low byte written to RAM[0x0011] for each direction
(the match arms of process_joystick). -/
def joyByte (j : Direction) : Nat :=
  match j with
  | Direction.Right => 0b11111110
  | Direction.Left => 0b11111101
  | Direction.Down => 0b11111011
  | Direction.Up => 0b11110111
  | Direction.Start => 0b11101111
  | Direction.Select => 0b11011111
  | Direction.ButtonB => 0b10111111
  | Direction.ButtonA => 0b01111111

/-- fn process_joystick: if a key is down and it differs from the previously
latched one, write its active-low byte to RAM[0x0011], clear RAM[0x0010],
and latch it.  Returns the updated RAM and latch. -/
def process_joystick (h : Host) (ram : Nat → Nat) (prev : Option Direction) :
    (Nat → Nat) × Option Direction :=
  match check_joystick h with
  | none => (ram, prev)
  | some j =>
    if prev = some j then (ram, prev)
    else
      let ram1 := write ram 0x0011 (joyByte j)
      let ram2 := write ram1 0x0010 0
      (ram2, some j)

/-- Vertical sync edge: OUT bit 7 falls between consecutive states. -/
def vSyncEdge (S T : CpuState) : Bool :=
  (S.OUT &&& 0b10000000 > 0) && (T.OUT &&& 0b10000000 == 0)

/-- Horizontal sync edge: OUT bit 6 falls between consecutive states.
Observed by fn vga but with no action (the undef reseed is commented out). -/
def hSyncEdge (S T : CpuState) : Bool :=
  (S.OUT &&& 0b01000000 > 0) && (T.OUT &&& 0b01000000 == 0)

/-- fn bright: the 2-bit to 8-bit intensity table.  The source panics on
inputs above 3; they cannot occur (the argument is masked to 2 bits), and
the model returns 0 there. -/
def bright (v : Nat) : Nat :=
  match v with
  | 0b11 => 0b11111111
  | 0b10 => 0b00111111
  | 0b01 => 0b00001111
  | 0b00 => 0b00000011
  | _ => 0

/-- The loop of fn render2, reduced to the trace of RAM addresses it reads.
The loop walks the host buffer of w*h pixels (the fuel argument), keeping
the host coordinates vgaX/vgaY; each pixel reads
RAM[2048 + (vgaY/(h/120))*256 + vgaX/(w/160)] guarded by addr < 32768;
vgaX wraps to 0 at w, incrementing vgaY. -/
def render2Reads (w h : Nat) : Nat → Nat → Nat → List Nat
  | 0, _, _ => []
  | n + 1, vgaX, vgaY =>
    let addr := 2048 + (vgaY / (h / 120)) * 256 + (vgaX / (w / 160))
    (if addr < 32768 then [addr] else []) ++
      (if vgaX + 1 = w then render2Reads w h n 0 (vgaY + 1)
       else render2Reads w h n (vgaX + 1) vgaY)

/-- fn vga: detect the sync edges between S and the freshly computed T;
on a vertical sync edge run render2 (modelled by its RAM read trace over
the 640 x 480 buffer created in Gigatron::new) and the window update;
then deliver a pending character to RAM[0x000f] (clearing RAM[0x0010])
when its code fits in a u8, and run process_joystick.  Returns the render
read trace, the updated RAM, and the updated joystick latch. -/
def vgaStep (S T : CpuState) (ram : Nat → Nat) (h : Host)
    (prev : Option Direction) :
    List Nat × (Nat → Nat) × Option Direction :=
  let reads := if vSyncEdge S T then render2Reads 640 480 (640 * 480) 0 0
               else []
  let ram1 :=
    match h.key with
    | some k => if k < 256 then write (write ram 0x000f k) 0x0010 0 else ram
    | none => ram
  let pj := process_joystick h ram1 prev
  (reads, pj.1, pj.2)

/-- The emulator state owned by struct Gigatron that the driver loop
mutates: CPU state, RAM, the IN byte, the cycle counter t, and the
joystick latch.  ROM is immutable and passed separately. -/
structure Gig where
  S : CpuState
  ram : Nat → Nat
  inp : Nat
  t : Int
  joy : Option Direction

/-- fn Gigatron::new: zero CPU state and RAM, IN = 0xff, t = -2, no
latched joystick direction. -/
def Gigatron.new : Gig :=
  { S := CpuState.new, ram := fun _ => 0, inp := 0xff, t := -2, joy := none }

/-- One iteration of the loop in fn run: while t is negative, force S.PC
to 0 (MCP100 power-on reset) before the cycle; execute cpuCycle; run vga
on (S, T); commit T as the new S; increment t. -/
def runStep (rom : Nat → Nat × Nat) (h : Host) (g : Gig) : Gig :=
  let S0 := if g.t < 0 then { g.S with PC := 0 } else g.S
  let c := cpuCycle rom g.inp S0 g.ram
  let v := vgaStep S0 c.1 c.2 h g.joy
  { S := c.1, ram := v.2.1, inp := g.inp, t := g.t + 1, joy := v.2.2 }

/-- The all-zero ROM image. -/
def romZ : Nat → Nat × Nat := fun _ => (0, 0)

/-- ROM holding (0b000_000_00, 0x42) at address 0 and zeros elsewhere. -/
def romLD : Nat → Nat × Nat := fun p => if p = 0 then (0, 0x42) else (0, 0)

/-- The all-zero RAM. -/
def ramZ : Nat → Nat := fun _ => 0

/-- A host with no inputs at all. -/
def hostNone : Host :=
  ⟨none, false, false, false, false, false, false, false, false⟩

/-! ### Projection lemmas for cpuCycle -/

lemma applyWriteback_undef (T : CpuState) (tgt : Option Register) (v : Nat) :
    (applyWriteback T tgt v).undef = T.undef := by
  rcases tgt with _ | r
  · rfl
  · rcases r <;> rfl

lemma applyWriteback_AC_of (T : CpuState) (tgt : Option Register) (v : Nat)
    (h : tgt = none ∨ tgt = some Register.X ∨ tgt = some Register.Y) :
    (applyWriteback T tgt v).AC = T.AC := by
  rcases h with h | h | h <;> subst h <;> rfl

lemma applyWriteback_OUT_of (T : CpuState) (tgt : Option Register) (v : Nat)
    (h : tgt = none ∨ tgt = some Register.X ∨ tgt = some Register.Y) :
    (applyWriteback T tgt v).OUT = T.OUT := by
  rcases h with h | h | h <;> subst h <;> rfl

lemma modeDecode_tgt_noJ_W (mode : Nat) (S : CpuState) :
    (modeDecode false true mode S).tgt = none ∨
    (modeDecode false true mode S).tgt = some Register.X ∨
    (modeDecode false true mode S).tgt = some Register.Y := by
  rcases mode with _ | _ | _ | _ | _ | _ | _ | m <;> simp [modeDecode, E]

lemma cpuCycle_PC (rom : Nat → Nat × Nat) (inp : Nat) (S : CpuState)
    (ram : Nat → Nat) :
    (cpuCycle rom inp S ram).1.PC =
      pcNext (cycJ S) (cycMode S) (cycB inp S ram) S := rfl

lemma cpuCycle_ram (rom : Nat → Nat × Nat) (inp : Nat) (S : CpuState)
    (ram : Nat → Nat) :
    (cpuCycle rom inp S ram).2 =
      if cycW S then write ram (cycAddr S &&& 0x7fff) (cycB inp S ram)
      else ram := rfl

lemma cpuCycle_AC (rom : Nat → Nat × Nat) (inp : Nat) (S : CpuState)
    (ram : Nat → Nat) :
    (cpuCycle rom inp S ram).1.AC =
      (applyWriteback { S with IR := (rom S.PC).1, D := (rom S.PC).2 }
        (cycMd S).tgt (cycALU inp S ram)).AC := by
  simp only [cpuCycle]
  split <;> rfl

lemma cpuCycle_OUT (rom : Nat → Nat × Nat) (inp : Nat) (S : CpuState)
    (ram : Nat → Nat) :
    (cpuCycle rom inp S ram).1.OUT =
      (applyWriteback { S with IR := (rom S.PC).1, D := (rom S.PC).2 }
        (cycMd S).tgt (cycALU inp S ram)).OUT := by
  simp only [cpuCycle]
  split <;> rfl

lemma cpuCycle_X (rom : Nat → Nat × Nat) (inp : Nat) (S : CpuState)
    (ram : Nat → Nat) :
    (cpuCycle rom inp S ram).1.X =
      if (cycMd S).incX then (S.X + 1) % 256
      else (applyWriteback { S with IR := (rom S.PC).1, D := (rom S.PC).2 }
        (cycMd S).tgt (cycALU inp S ram)).X := by
  simp only [cpuCycle]
  split <;> rfl

lemma cpuCycle_Y (rom : Nat → Nat × Nat) (inp : Nat) (S : CpuState)
    (ram : Nat → Nat) :
    (cpuCycle rom inp S ram).1.Y =
      (applyWriteback { S with IR := (rom S.PC).1, D := (rom S.PC).2 }
        (cycMd S).tgt (cycALU inp S ram)).Y := by
  simp only [cpuCycle]
  split <;> rfl

lemma cpuCycle_undef (rom : Nat → Nat × Nat) (inp : Nat) (S : CpuState)
    (ram : Nat → Nat) :
    (cpuCycle rom inp S ram).1.undef = S.undef := by
  simp only [cpuCycle]
  split <;> simp [applyWriteback_undef]

/-! ### Claim theorems -/

/-- Claim C1: in every cycle with ins = 6 (ST), the accumulator and the
output register are unchanged, while X (mode 4) and Y (mode 5) still
receive the ALU result, which for ST equals S.AC. -/
theorem st_disables_AC_OUT_not_XY (rom : Nat → Nat × Nat) (inp : Nat)
    (S : CpuState) (ram : Nat → Nat) (hins : cycIns S = 6) :
    (cpuCycle rom inp S ram).1.AC = S.AC ∧
    (cpuCycle rom inp S ram).1.OUT = S.OUT ∧
    (cycMode S = 4 → (cpuCycle rom inp S ram).1.X = cycALU inp S ram) ∧
    (cycMode S = 5 → (cpuCycle rom inp S ram).1.Y = cycALU inp S ram) ∧
    cycALU inp S ram = S.AC := by
  have hW : cycW S = true := by simp [cycW, hins]
  have hJ : cycJ S = false := by simp [cycJ, hins]
  have hALU : cycALU inp S ram = S.AC := by simp [cycALU, hins, aluValue]
  have hmd : cycMd S = modeDecode false true (cycMode S) S := by
    rw [cycMd, hW, hJ]
  have htgt : (cycMd S).tgt = none ∨ (cycMd S).tgt = some Register.X ∨
      (cycMd S).tgt = some Register.Y := by
    rw [hmd]; exact modeDecode_tgt_noJ_W (cycMode S) S
  refine ⟨?_, ?_, ?_, ?_, hALU⟩
  · rw [cpuCycle_AC, applyWriteback_AC_of _ _ _ htgt]
  · rw [cpuCycle_OUT, applyWriteback_OUT_of _ _ _ htgt]
  · intro h4
    have hmd4 : cycMd S = ⟨S.D, 0, some Register.X, false⟩ := by
      rw [hmd, h4]; rfl
    rw [cpuCycle_X, hmd4]
    rfl
  · intro h5
    have hmd5 : cycMd S = ⟨S.D, 0, some Register.Y, false⟩ := by
      rw [hmd, h5]; rfl
    rw [cpuCycle_Y, hmd5]
    rfl

/-- Concrete ST instruction state for the witness: IR = 0b110_100_00
(ins = 6, mode = 4, bus = 0), AC = 0x5A. -/
def Sst : CpuState := ⟨0, 0xd0, 0, 0x5a, 0, 0, 0, 0⟩

/-- Witness for C1 at a concrete ST X instruction. -/
theorem st_disables_AC_OUT_not_XY_witness :
    (cpuCycle romZ 0xff Sst ramZ).1.AC = Sst.AC ∧
    (cpuCycle romZ 0xff Sst ramZ).1.OUT = Sst.OUT ∧
    (cycMode Sst = 4 → (cpuCycle romZ 0xff Sst ramZ).1.X = cycALU 0xff Sst ramZ) ∧
    (cycMode Sst = 5 → (cpuCycle romZ 0xff Sst ramZ).1.Y = cycALU 0xff Sst ramZ) ∧
    cycALU 0xff Sst ramZ = Sst.AC :=
  st_disables_AC_OUT_not_XY romZ 0xff Sst ramZ (by decide)

/-- Claim C3: with bus = 1 and W = 1 (ins = 6), no RAM read happens: the
bus value B is S.undef for every RAM content, and the write stores S.undef
at RAM[addr & 0x7fff]. -/
theorem st_bus1_stores_undef (rom : Nat → Nat × Nat) (inp : Nat)
    (S : CpuState) (ram : Nat → Nat) (hins : cycIns S = 6)
    (hbus : cycBus S = 1) :
    cycB inp S ram = S.undef ∧
    (∀ ram2 : Nat → Nat, cycB inp S ram2 = S.undef) ∧
    (cpuCycle rom inp S ram).2 = write ram (cycAddr S &&& 0x7fff) S.undef ∧
    (cpuCycle rom inp S ram).2 (cycAddr S &&& 0x7fff) = S.undef := by
  have hW : cycW S = true := by simp [cycW, hins]
  have hB : ∀ ram2 : Nat → Nat, cycB inp S ram2 = S.undef := by
    intro ram2
    rw [cycB, hbus, hW]
    rfl
  refine ⟨hB ram, hB, ?_, ?_⟩
  · rw [cpuCycle_ram, hW, hB ram]
    rfl
  · rw [cpuCycle_ram, hW, hB ram]
    simp [write]

/-- Concrete state for the C3 witness: IR = 0b110_000_01
(ins = 6, mode = 0, bus = 1), undef = 0x99, D = 0x23. -/
def SstBus1 : CpuState := ⟨0, 0xc1, 0x23, 0x5a, 0, 0, 0, 0x99⟩

/-- Witness for C3 at a concrete ST instruction with bus = 1. -/
theorem st_bus1_stores_undef_witness :
    cycB 0xff SstBus1 ramZ = SstBus1.undef ∧
    (∀ ram2 : Nat → Nat, cycB 0xff SstBus1 ram2 = SstBus1.undef) ∧
    (cpuCycle romZ 0xff SstBus1 ramZ).2 =
      write ramZ (cycAddr SstBus1 &&& 0x7fff) SstBus1.undef ∧
    (cpuCycle romZ 0xff SstBus1 ramZ).2 (cycAddr SstBus1 &&& 0x7fff) =
      SstBus1.undef :=
  st_bus1_stores_undef romZ 0xff SstBus1 ramZ (by decide) (by decide)

/-- Claim C4: in every non-jump cycle with mode = 7 the address is
(S.Y << 8) | S.X, X auto-increments regardless of W, OUT receives the ALU
result when W = 0, and in particular ins = 4 gives OUT = (AC + B) mod 256
together with the X increment. -/
theorem mode7_increments_X (rom : Nat → Nat × Nat) (inp : Nat)
    (S : CpuState) (ram : Nat → Nat) (hins : cycIns S ≠ 7)
    (hmode : cycMode S = 7) :
    cycAddr S = (S.Y <<< 8) ||| S.X ∧
    (cpuCycle rom inp S ram).1.X = (S.X + 1) % 256 ∧
    (cycW S = false → (cpuCycle rom inp S ram).1.OUT = cycALU inp S ram) ∧
    (cycIns S = 4 →
      (cpuCycle rom inp S ram).1.OUT = (S.AC + cycB inp S ram) % 256 ∧
      (cpuCycle rom inp S ram).1.X = (S.X + 1) % 256) := by
  have hJ : cycJ S = false := by
    rw [cycJ]
    cases h : cycIns S == 7
    · rfl
    · exact absurd (by simpa using h) hins
  have hmd : cycMd S = ⟨S.X, S.Y, E (cycW S) Register.OUT, true⟩ := by
    rw [cycMd, hJ, hmode]
    rfl
  have haddr : cycAddr S = (S.Y <<< 8) ||| S.X := by
    rw [cycAddr, hmd]; rfl
  have hX : (cpuCycle rom inp S ram).1.X = (S.X + 1) % 256 := by
    rw [cpuCycle_X, hmd]; rfl
  refine ⟨haddr, hX, ?_, ?_⟩
  · intro hWf
    rw [cpuCycle_OUT, hmd, hWf]
    rfl
  · intro h4
    have hWf : cycW S = false := by simp [cycW, h4]
    have hALU : cycALU inp S ram = (S.AC + cycB inp S ram) % 256 := by
      rw [cycALU, h4]
      rfl
    exact ⟨by rw [cpuCycle_OUT, hmd, hWf]; exact hALU, hX⟩

/-- Concrete state for the C4 witness: IR = 0b100_111_10
(ins = 4 ADD, mode = 7, bus = 2), AC = 0x77, X = 5. -/
def Smode7 : CpuState := ⟨0, 0x9e, 0, 0x77, 5, 0, 0, 0⟩

/-- Witness for C4 at a concrete mode-7 ADD instruction. -/
theorem mode7_increments_X_witness :
    cycAddr Smode7 = (Smode7.Y <<< 8) ||| Smode7.X ∧
    (cpuCycle romZ 0xff Smode7 ramZ).1.X = (Smode7.X + 1) % 256 ∧
    (cycW Smode7 = false →
      (cpuCycle romZ 0xff Smode7 ramZ).1.OUT = cycALU 0xff Smode7 ramZ) ∧
    (cycIns Smode7 = 4 →
      (cpuCycle romZ 0xff Smode7 ramZ).1.OUT =
        (Smode7.AC + cycB 0xff Smode7 ramZ) % 256 ∧
      (cpuCycle romZ 0xff Smode7 ramZ).1.X = (Smode7.X + 1) % 256) :=
  mode7_increments_X romZ 0xff Smode7 ramZ (by decide) (by decide)

/-- Claim C5 counterexample: from the all-zero state with
ROM[0] = (0b000_000_00, 0x42), one cycle does not load 0x42 into AC: the
fetched word only reaches IR/D (the Gigatron pipeline), and AC stays 0. -/
theorem ld_imm_one_cycle_refuted :
    ¬ ((cpuCycle romLD 0xff CpuState.new ramZ).1.AC = 0x42 ∧
       (cpuCycle romLD 0xff CpuState.new ramZ).1.PC = 1) := by
  decide

/-- Claim C5 as amended: after one cycle only the fetch is visible
(T.D = 0x42, T.PC = 1, AC and everything else unchanged); the loaded value
0x42 reaches AC after the second cycle, with PC = 2 and all other state
(IR, D, X, Y, OUT, undef, RAM) back at its initial zero value. -/
theorem ld_imm_takes_two_cycles :
    (cpuCycle romLD 0xff CpuState.new ramZ).1.AC = 0 ∧
    (cpuCycle romLD 0xff CpuState.new ramZ).1.PC = 1 ∧
    (cpuCycle romLD 0xff CpuState.new ramZ).1.IR = 0 ∧
    (cpuCycle romLD 0xff CpuState.new ramZ).1.D = 0x42 ∧
    (cpuCycle romLD 0xff CpuState.new ramZ).1.X = 0 ∧
    (cpuCycle romLD 0xff CpuState.new ramZ).1.Y = 0 ∧
    (cpuCycle romLD 0xff CpuState.new ramZ).1.OUT = 0 ∧
    (cpuCycle romLD 0xff CpuState.new ramZ).1.undef = 0 ∧
    (cpuCycle romLD 0xff CpuState.new ramZ).2 = ramZ ∧
    (cpuCycle romLD 0xff
        (cpuCycle romLD 0xff CpuState.new ramZ).1
        (cpuCycle romLD 0xff CpuState.new ramZ).2).1.AC = 0x42 ∧
    (cpuCycle romLD 0xff
        (cpuCycle romLD 0xff CpuState.new ramZ).1
        (cpuCycle romLD 0xff CpuState.new ramZ).2).1.PC = 2 ∧
    (cpuCycle romLD 0xff
        (cpuCycle romLD 0xff CpuState.new ramZ).1
        (cpuCycle romLD 0xff CpuState.new ramZ).2).1.IR = 0 ∧
    (cpuCycle romLD 0xff
        (cpuCycle romLD 0xff CpuState.new ramZ).1
        (cpuCycle romLD 0xff CpuState.new ramZ).2).1.D = 0 ∧
    (cpuCycle romLD 0xff
        (cpuCycle romLD 0xff CpuState.new ramZ).1
        (cpuCycle romLD 0xff CpuState.new ramZ).2).1.X = 0 ∧
    (cpuCycle romLD 0xff
        (cpuCycle romLD 0xff CpuState.new ramZ).1
        (cpuCycle romLD 0xff CpuState.new ramZ).2).1.Y = 0 ∧
    (cpuCycle romLD 0xff
        (cpuCycle romLD 0xff CpuState.new ramZ).1
        (cpuCycle romLD 0xff CpuState.new ramZ).2).1.OUT = 0 ∧
    (cpuCycle romLD 0xff
        (cpuCycle romLD 0xff CpuState.new ramZ).1
        (cpuCycle romLD 0xff CpuState.new ramZ).2).1.undef = 0 ∧
    (cpuCycle romLD 0xff
        (cpuCycle romLD 0xff CpuState.new ramZ).1
        (cpuCycle romLD 0xff CpuState.new ramZ).2).2 = ramZ := by
  refine ⟨by decide, by decide, by decide, by decide, by decide, by decide,
    by decide, by decide, rfl, by decide, by decide, by decide, by decide,
    by decide, by decide, by decide, by decide, rfl⟩

/-- Claim C10: the undef byte is never modified after power-on: every
cpuCycle and every full driver-loop iteration preserves it (the
horizontal-sync reseed is commented out in the source). -/
theorem undef_is_constant :
    (∀ (rom : Nat → Nat × Nat) (inp : Nat) (S : CpuState) (ram : Nat → Nat),
      (cpuCycle rom inp S ram).1.undef = S.undef) ∧
    (∀ (rom : Nat → Nat × Nat) (h : Host) (g : Gig),
      (runStep rom h g).S.undef = g.S.undef) := by
  refine ⟨fun rom inp S ram => cpuCycle_undef rom inp S ram, ?_⟩
  intro rom h g
  show (cpuCycle rom g.inp (if g.t < 0 then { g.S with PC := 0 } else g.S)
      g.ram).1.undef = g.S.undef
  rw [cpuCycle_undef]
  split <;> rfl

/-- Claim C2: the PC update takes exactly the three forms computed by
pcNext: default increment mod 65536, far jump (Y << 8) | B for ins = 7
mode = 0, and the in-page conditional branch for ins = 7 with nonzero
mode, keyed on s = (AC >> 7) + 2 * (AC == 0). -/
theorem pc_update_forms (rom : Nat → Nat × Nat) (inp : Nat) (S : CpuState)
    (ram : Nat → Nat) :
    (cycIns S ≠ 7 → (cpuCycle rom inp S ram).1.PC = (S.PC + 1) % 65536) ∧
    (cycIns S = 7 → cycMode S = 0 →
      (cpuCycle rom inp S ram).1.PC = (S.Y <<< 8) ||| cycB inp S ram) ∧
    (cycIns S = 7 → cycMode S ≠ 0 →
      (cycMode S &&& (1 <<< ((S.AC >>> 7) +
          2 * (if S.AC = 0 then 1 else 0))) ≠ 0 →
        (cpuCycle rom inp S ram).1.PC =
          (S.PC &&& 0xff00) ||| cycB inp S ram) ∧
      (cycMode S &&& (1 <<< ((S.AC >>> 7) +
          2 * (if S.AC = 0 then 1 else 0))) = 0 →
        (cpuCycle rom inp S ram).1.PC = (S.PC + 1) % 65536)) ∧
    ((cpuCycle rom inp S ram).1.PC = (S.PC + 1) % 65536 ∨
      (∃ b, (cpuCycle rom inp S ram).1.PC = (S.PC &&& 0xff00) ||| b) ∨
      (∃ b, (cpuCycle rom inp S ram).1.PC = (S.Y <<< 8) ||| b)) := by
  rw [cpuCycle_PC]
  have hdefault : pcNext false (cycMode S) (cycB inp S ram) S =
      (S.PC + 1) % 65536 := rfl
  refine ⟨?_, ?_, ?_, ?_⟩
  · intro hne
    have hJ : cycJ S = false := by
      rw [cycJ]
      cases h : cycIns S == 7
      · rfl
      · exact absurd (by simpa using h) hne
    rw [hJ, hdefault]
  · intro h7 h0
    have hJ : cycJ S = true := by simp [cycJ, h7]
    rw [hJ, h0]
    rfl
  · intro h7 hm0
    have hJ : cycJ S = true := by simp [cycJ, h7]
    rw [hJ]
    constructor
    · intro hst
      rw [pcNext, if_pos rfl, if_pos hm0]
      simp only [gt_iff_lt]
      rw [if_pos (by omega : 0 < cycMode S &&& (1 <<< ((S.AC >>> 7) +
        2 * (if S.AC = 0 then 1 else 0))))]
    · intro hst
      rw [pcNext, if_pos rfl, if_pos hm0]
      simp only [gt_iff_lt]
      rw [if_neg (by omega : ¬ 0 < cycMode S &&& (1 <<< ((S.AC >>> 7) +
        2 * (if S.AC = 0 then 1 else 0))))]
  · cases hJ : cycJ S
    · rw [hdefault]
      exact Or.inl rfl
    · by_cases hm0 : cycMode S = 0
      · rw [hm0]
        exact Or.inr (Or.inr ⟨cycB inp S ram, rfl⟩)
      · rw [pcNext, if_pos rfl, if_pos hm0]
        simp only [gt_iff_lt]
        by_cases hst : 0 < cycMode S &&& (1 <<< ((S.AC >>> 7) +
            2 * (if S.AC = 0 then 1 else 0)))
        · rw [if_pos hst]
          exact Or.inr (Or.inl ⟨cycB inp S ram, rfl⟩)
        · rw [if_neg hst]
          exact Or.inl rfl

/-- Concrete state for the C2 witness: IR = 0b111_100_00 (ins = 7, a
conditional branch with mode = 4, bus = 0), AC = 0, D = 0x40,
PC = 0x0200: the taken branch lands on (PC & 0xff00) | 0x40 = 0x0240. -/
def Sbcc : CpuState := ⟨0x0200, 0xf0, 0x40, 0, 0, 0, 0, 0⟩

/-- Witness for C2: the branch-on-zero scenario takes the in-page form. -/
theorem pc_update_forms_witness :
    (cpuCycle romZ 0xff Sbcc ramZ).1.PC =
      (Sbcc.PC &&& 0xff00) ||| cycB 0xff Sbcc ramZ ∧
    (cpuCycle romZ 0xff Sbcc ramZ).1.PC = 0x0240 :=
  ⟨((pc_update_forms romZ 0xff Sbcc ramZ).2.2.1 (by decide) (by decide)).1
      (by decide),
    by decide⟩

/-- A host delivering the character code 65 with no keys held. -/
def hostKeyA : Host :=
  ⟨some 65, false, false, false, false, false, false, false, false⟩

/-- Claim C7 counterexample: on a cycle with no vertical-sync edge
(OUT bit 7 low in both states) a pending character is still written to
RAM[0x000f]: input is not confined to vertical-sync iterations. -/
theorem input_written_without_vsync :
    vSyncEdge CpuState.new CpuState.new = false ∧
    (vgaStep CpuState.new CpuState.new ramZ hostKeyA none).2.1 0x000f = 65 ∧
    ramZ 0x000f = 0 ∧ (65 : Nat) ≠ 0 := by
  decide

/-- Claim C7 as amended: the input poll runs on every driver-loop
iteration, independently of the sync detector: the RAM and joystick-latch
effects of vga are the same whatever the OUT transition was, and a pending
character always lands in RAM[0x000f] with RAM[0x0010] cleared. -/
theorem input_polled_every_iteration (S T Sx Tx : CpuState)
    (ram : Nat → Nat) (h : Host) (prev : Option Direction) (k : Nat) :
    (vgaStep S T ram h prev).2 = (vgaStep Sx Tx ram h prev).2 ∧
    (h.key = some k → k < 256 → check_joystick h = none →
      (vgaStep S T ram h prev).2.1 0x000f = k ∧
      (vgaStep S T ram h prev).2.1 0x0010 = 0) := by
  refine ⟨rfl, ?_⟩
  intro hkey hk hjoy
  have heff : (vgaStep S T ram h prev).2.1 =
      write (write ram 0x000f k) 0x0010 0 := by
    simp only [vgaStep, hkey, if_pos hk, process_joystick, hjoy]
  rw [heff]
  constructor
  · simp [write]
  · simp [write]

/-- Witness for the amended C7 on a no-edge cycle with a pressed key. -/
theorem input_polled_every_iteration_witness :
    (vgaStep CpuState.new CpuState.new ramZ hostKeyA none).2.1 0x000f = 65 ∧
    (vgaStep CpuState.new CpuState.new ramZ hostKeyA none).2.1 0x0010 = 0 :=
  (input_polled_every_iteration CpuState.new CpuState.new CpuState.new
    CpuState.new ramZ hostKeyA none 65).2 rfl (by decide) (by decide)

/-- A host holding the Up arrow and the Tab (button B) key together. -/
def hostUpTab : Host :=
  ⟨none, true, false, false, false, false, false, false, true⟩

/-- Claim C8 counterexample: with Up and B both held the poll selects
ButtonB, not Up, and writes 0b10111111 instead of 0b11110111: the last
test in the source order Up, Down, Left, Right, Start, Select, A, B wins,
the reverse of the claimed order. -/
theorem joystick_up_does_not_win :
    check_joystick hostUpTab = some Direction.ButtonB ∧
    check_joystick hostUpTab ≠ some Direction.Up ∧
    (process_joystick hostUpTab ramZ none).1 0x0011 = 0b10111111 ∧
    (0b10111111 : Nat) ≠ 0b11110111 := by
  decide

/-- Modelled on the priority wording of the spec with the order corrected
to the poll sequence of the source: the last held input in the order Up, Down,
Left, Right, Start, Select, A, B is selected, so B wins over every other
held input. -/
def joyPriority (h : Host) : Option Direction :=
  if h.tab then some Direction.ButtonB
  else if h.space then some Direction.ButtonA
  else if h.backspace then some Direction.Select
  else if h.enter then some Direction.Start
  else if h.right then some Direction.Right
  else if h.left then some Direction.Left
  else if h.down then some Direction.Down
  else if h.up then some Direction.Up
  else none

/-- Claim C8 as amended: the selected input is the last held one in the
poll sequence Up, Down, Left, Right, Start, Select, A, B (so B wins over
every other held input); when the selection differs from the previously
latched one, RAM[0x0011] receives the active-low byte with only the
selected bit cleared and RAM[0x0010] is cleared; the bit assignment is
bit 0 right, 1 left, 2 down, 3 up, 4 start, 5 select, 6 B, 7 A. -/
theorem joystick_priority_and_write (h : Host) (ram : Nat → Nat)
    (prev : Option Direction) (j : Direction) :
    check_joystick h = joyPriority h ∧
    (check_joystick h = some j → prev ≠ some j →
      (process_joystick h ram prev).1 0x0011 = joyByte j ∧
      (process_joystick h ram prev).1 0x0010 = 0 ∧
      (process_joystick h ram prev).2 = some j) ∧
    joyByte Direction.Right = 0xfe ∧ joyByte Direction.Left = 0xfd ∧
    joyByte Direction.Down = 0xfb ∧ joyByte Direction.Up = 0xf7 ∧
    joyByte Direction.Start = 0xef ∧ joyByte Direction.Select = 0xdf ∧
    joyByte Direction.ButtonB = 0xbf ∧ joyByte Direction.ButtonA = 0x7f := by
  refine ⟨?_, ?_, rfl, rfl, rfl, rfl, rfl, rfl, rfl, rfl⟩
  · rcases h with ⟨key, u, d, l, r, e, b, s, t⟩
    cases u <;> cases d <;> cases l <;> cases r <;> cases e <;> cases b <;>
      cases s <;> cases t <;> rfl
  · intro hsel hprev
    simp only [process_joystick, hsel]
    rw [if_neg hprev]
    refine ⟨?_, ?_, rfl⟩
    · simp [write]
    · simp [write]

/-- Witness for the amended C8: Up and B held, B selected and written. -/
theorem joystick_priority_and_write_witness :
    (process_joystick hostUpTab ramZ none).1 0x0011 =
      joyByte Direction.ButtonB ∧
    (process_joystick hostUpTab ramZ none).1 0x0010 = 0 ∧
    (process_joystick hostUpTab ramZ none).2 = some Direction.ButtonB :=
  (joystick_priority_and_write hostUpTab ramZ none Direction.ButtonB).2.1
    (by decide) (by decide)

/-- Claim C9 counterexample: the very first iteration runs with the cycle
counter negative, yet the PC resulting from the iteration is 1, not 0:
the reset forces S.PC before the cycle instead of overriding T.PC. -/
theorem reset_does_not_override_result_pc :
    Gigatron.new.t < 0 ∧
    (runStep romZ hostNone Gigatron.new).S.PC = 1 ∧ (1 : Nat) ≠ 0 := by
  refine ⟨by decide, by decide, by decide⟩

/-- Claim C9 as amended: the cycle counter starts at -2 and increments
every iteration; while it is negative the reset forces S.PC to 0 before
the cycle executes (so the cycle computes its successor from PC = 0, and
the resulting T.PC is whatever the cycle computes, not 0); from the third
iteration on (t = 0) the force is no longer applied. -/
theorem reset_forces_pc_before_cycle (rom : Nat → Nat × Nat) (h : Host)
    (g : Gig) :
    Gigatron.new.t = -2 ∧
    (runStep rom h g).t = g.t + 1 ∧
    (g.t < 0 → (runStep rom h g).S =
      (cpuCycle rom g.inp { g.S with PC := 0 } g.ram).1) ∧
    (0 ≤ g.t → (runStep rom h g).S = (cpuCycle rom g.inp g.S g.ram).1) ∧
    (runStep rom h (runStep rom h Gigatron.new)).t = 0 := by
  refine ⟨rfl, rfl, ?_, ?_, ?_⟩
  · intro hneg
    show (cpuCycle rom g.inp (if g.t < 0 then { g.S with PC := 0 } else g.S)
        g.ram).1 = _
    rw [if_pos hneg]
  · intro hpos
    show (cpuCycle rom g.inp (if g.t < 0 then { g.S with PC := 0 } else g.S)
        g.ram).1 = _
    rw [if_neg (by omega)]
  · show Gigatron.new.t + 1 + 1 = 0
    decide

/-- Witness for the amended C9 at the first iteration from power-on. -/
theorem reset_forces_pc_before_cycle_witness :
    Gigatron.new.t < 0 ∧
    (runStep romZ hostNone Gigatron.new).S =
      (cpuCycle romZ Gigatron.new.inp
        { Gigatron.new.S with PC := 0 } Gigatron.new.ram).1 :=
  ⟨by decide,
    (reset_forces_pc_before_cycle romZ hostNone Gigatron.new).2.2.1
      (by decide)⟩

/-- One full host scanline of render2 at 640 x 480: starting k+1 pixels
before the end of a line, the loop emits the addresses of those pixels and
continues at the start of the next line. -/
lemma render2Reads_row (k : Nat) :
    ∀ (vgaX vgaY m : Nat), vgaX + (k + 1) = 640 → vgaY < 480 →
    render2Reads 640 480 (k + 1 + m) vgaX vgaY =
      (List.range (k + 1)).map
        (fun j => 2048 + (vgaY / 4) * 256 + (vgaX + j) / 4) ++
        render2Reads 640 480 m 0 (vgaY + 1) := by
  induction k with
  | zero =>
    intro vgaX vgaY m hk hY
    have hx : vgaX = 639 := by omega
    subst hx
    have h1 : 0 + 1 + m = m + 1 := by omega
    rw [h1]
    simp only [render2Reads]
    norm_num
    rw [if_pos (show 2048 + vgaY / 4 * 256 + 159 < 32768 by omega)]
    simp [List.range_succ]
  | succ k ih =>
    intro vgaX vgaY m hk hY
    have h1 : k + 1 + 1 + m = (k + 1 + m) + 1 := by omega
    rw [h1]
    simp only [render2Reads]
    norm_num
    rw [if_neg (show ¬ (vgaX + 1 = 640) by omega)]
    rw [if_pos (show 2048 + vgaY / 4 * 256 + vgaX / 4 < 32768 by omega)]
    rw [ih (vgaX + 1) vgaY m (by omega) hY]
    have hfun : ((fun j => 2048 + vgaY / 4 * 256 + (vgaX + j) / 4) ∘
        (· + 1)) =
        (fun j => 2048 + vgaY / 4 * 256 + (vgaX + 1 + j) / 4) := by
      funext j
      simp only [Function.comp_def]
      omega
    conv_rhs => rw [List.range_succ_eq_map]
    rw [List.map_cons, List.map_map, hfun]
    norm_num

/-- The block of host scanlines from vgaY on: membership in the read trace
of r remaining lines. -/
lemma render2Reads_frame (r : Nat) :
    ∀ (vgaY : Nat), vgaY + r ≤ 480 → ∀ a : Nat,
      (a ∈ render2Reads 640 480 (r * 640) 0 vgaY ↔
        ∃ v, vgaY ≤ v ∧ v < vgaY + r ∧ ∃ j, j < 640 ∧
          a = 2048 + (v / 4) * 256 + j / 4) := by
  induction r with
  | zero =>
    intro vgaY hY a
    rw [Nat.zero_mul]
    simp only [render2Reads, List.not_mem_nil, false_iff]
    rintro ⟨v, h1, h2, _⟩
    omega
  | succ r ih =>
    intro vgaY hY a
    have hY1 : vgaY < 480 := by omega
    have hf : (r + 1) * 640 = 639 + 1 + r * 640 := by ring
    rw [hf, render2Reads_row 639 0 vgaY (r * 640) (by omega) hY1]
    rw [List.mem_append]
    rw [ih (vgaY + 1) (by omega) a]
    simp only [List.mem_map, List.mem_range]
    constructor
    · rintro (⟨j, hj, rfl⟩ | ⟨v, hv1, hv2, j, hj, rfl⟩)
      · exact ⟨vgaY, Nat.le_refl _, by omega, j, hj, by omega⟩
      · exact ⟨v, by omega, by omega, j, hj, rfl⟩
    · rintro ⟨v, hv1, hv2, j, hj, rfl⟩
      by_cases hveq : v = vgaY
      · subst hveq
        exact Or.inl ⟨j, hj, by omega⟩
      · exact Or.inr ⟨v, by omega, by omega, j, hj, rfl⟩

/-- The complete render2 read trace visits exactly the video bytes
2048 + 256 * y + x with x < 160 and y < 120. -/
lemma render2Reads_mem (a : Nat) :
    a ∈ render2Reads 640 480 (640 * 480) 0 0 ↔
      ∃ x, x < 160 ∧ ∃ y, y < 120 ∧ a = 2048 + 256 * y + x := by
  have h : (640 : Nat) * 480 = 480 * 640 := by ring
  rw [h, render2Reads_frame 480 0 (by omega) a]
  constructor
  · rintro ⟨v, _, hv, j, hj, rfl⟩
    exact ⟨j / 4, by omega, v / 4, by omega, by omega⟩
  · rintro ⟨x, hx, y, hy, rfl⟩
    exact ⟨4 * y, by omega, by omega, 4 * x, by omega, by omega⟩

/-- Claim C6: a frame render happens in an iteration exactly when OUT
bit 7 falls between S and T, and a render reads RAM exactly at the
addresses 2048 + 256 * y + x for x < 160, y < 120, all below 32768. -/
theorem render_iff_vsync_edge (S T : CpuState) (ram : Nat → Nat) (h : Host)
    (prev : Option Direction) :
    ((vgaStep S T ram h prev).1 ≠ [] ↔ vSyncEdge S T = true) ∧
    (∀ a, a ∈ (vgaStep S T ram h prev).1 ↔
      (vSyncEdge S T = true ∧ ∃ x, x < 160 ∧ ∃ y, y < 120 ∧
        a = 2048 + 256 * y + x)) ∧
    (∀ a, a ∈ (vgaStep S T ram h prev).1 → a < 32768) := by
  have h1 : (vgaStep S T ram h prev).1 =
      if vSyncEdge S T then render2Reads 640 480 (640 * 480) 0 0
      else [] := rfl
  rw [h1]
  by_cases hv : vSyncEdge S T = true
  · rw [if_pos hv]
    refine ⟨?_, ?_, ?_⟩
    · simp only [hv, iff_true]
      exact List.ne_nil_of_mem
        ((render2Reads_mem 2048).2 ⟨0, by omega, 0, by omega, by omega⟩)
    · intro a
      rw [render2Reads_mem a]
      simp [hv]
    · intro a ha
      obtain ⟨x, hx, y, hy, rfl⟩ := (render2Reads_mem a).1 ha
      omega
  · rw [if_neg hv]
    refine ⟨?_, ?_, ?_⟩
    · simp [hv]
    · intro a
      simp [hv]
    · intro a ha
      exact absurd ha (List.not_mem_nil a)
